import Mathlib

/-!
Verification development for the chuyenhang shipment-tracking repository.

The available sources are `src/app.py` (the Streamlit UI and call sites) and
`src/config.py` (status enumeration, default status).  The shipment lifecycle
store (`database.py`) and the QR codec (`qr_scanner.py`) are imported by
`app.py` but their files are not part of the sources, so those operations are
modelled from the specification (each such definition carries a doc comment
starting with "Modelled from the spec:").  Everything taken from `app.py` or
`config.py` is embedded directly from the source.
-/

/- ------------------------------------------------------------------ -/
/- Python string primitives used by the embedded code.                 -/
/- ------------------------------------------------------------------ -/

/-- Characters treated as whitespace by the embedding of Python `str.strip()`. -/
def isPySpace (c : Char) : Bool := c.isWhitespace

/-- Trim whitespace characters from both ends of a character list. -/
def trimChars (l : List Char) : List Char :=
  ((l.dropWhile isPySpace).reverse.dropWhile isPySpace).reverse

/-- Embedding of Python `s.strip()`: remove leading and trailing whitespace. -/
def pyStrip (s : String) : String := String.mk (trimChars s.data)

/-- Split a character list at every comma; mirrors Python `str.split(',')`
(the empty list yields one empty field, n commas yield n+1 fields). -/
def splitCommaAux : List Char → List Char → List (List Char)
  | [], acc => [acc.reverse]
  | c :: cs, acc =>
    if c = ',' then acc.reverse :: splitCommaAux cs [] else splitCommaAux cs (c :: acc)

/-- Embedding of Python `s.split(',')`. -/
def pySplitComma (s : String) : List String := (splitCommaAux s.data []).map String.mk

/- ------------------------------------------------------------------ -/
/- QR codec.                                                           -/
/- ------------------------------------------------------------------ -/

/-- The structured record produced by decoding a QR payload. -/
structure QRData where
  qr_code : String
  imei : String
  device_name : String
  capacity : String
deriving DecidableEq

/-- Modelled from the spec: `parse_qr_code` lives in `qr_scanner.py`, which is
not among the available sources.  Per the decode contract it splits the raw
text on the comma delimiter into at most four fields, trims whitespace from
each, and defaults missing trailing fields to the empty string. -/
def parse_qr_code (text : String) : QRData :=
  let parts := (pySplitComma text).map pyStrip
  { qr_code := parts.getD 0 ""
    imei := parts.getD 1 ""
    device_name := parts.getD 2 ""
    capacity := parts.getD 3 "" }

/-- Modelled from the spec: the encode contract packs `qr_code`, `imei`,
`device_name`, `capacity` in this fixed order into one text payload joined by
an unescaped comma delimiter (label generation itself is outside the sources). -/
def encode_qr_payload (qr imei device_name capacity : String) : String :=
  qr ++ "," ++ imei ++ "," ++ device_name ++ "," ++ capacity

/- ------------------------------------------------------------------ -/
/- Status enumeration, from src/config.py.                             -/
/- ------------------------------------------------------------------ -/

/-- Embedded from `src/config.py`: the fixed shipment status values
(Sending, Received, Damaged, Lost). -/
def STATUS_VALUES : List String := ["Đang gửi", "Đã nhận", "Hư hỏng", "Mất"]

/-- Embedded from `src/config.py`: the default status for new shipments. -/
def DEFAULT_STATUS : String := "Đang gửi"

/- ------------------------------------------------------------------ -/
/- Shipment lifecycle store.                                           -/
/- ------------------------------------------------------------------ -/

/-- The recoverable error kinds of the store layer. -/
inductive StoreError where
  | DuplicateQrCode
  | UnknownSupplier
  | NotFound
  | InvalidStatus
  | ValidationError
deriving DecidableEq

/-- One shipment record, as described by the data model. -/
structure Shipment where
  id : Nat
  qr_code : String
  imei : String
  device_name : String
  capacity : String
  supplier : String
  status : String
  sent_time : Nat
  received_time : Option Nat
  notes : Option String
  created_by : String
  updated_by : Option String
  image_url : Option String
deriving DecidableEq

/-- One append-only audit record of a shipment mutation. -/
structure AuditEntry where
  shipment_id : Nat
  field_changed : String
  old_value : String
  new_value : String
  actor : String
  time : Nat
deriving DecidableEq

/-- The store state: the shipment table, the audit log (most recent first),
and the next surrogate id. -/
structure StoreState where
  shipments : List Shipment
  audit : List AuditEntry
  nextId : Nat
deriving DecidableEq

/-- The empty store. -/
def initState : StoreState := { shipments := [], audit := [], nextId := 1 }

/-- Modelled from the spec: `get_shipment_by_qr_code` in `database.py` (not
among the sources) is an exact-match lookup by `qr_code`. -/
def get_shipment_by_qr_code (st : StoreState) (qr : String) : Option Shipment :=
  st.shipments.find? (fun s => s.qr_code == qr)

/-- The freshly inserted shipment record produced by a successful create. -/
def newShipment (st : StoreState) (now : Nat)
    (qr imei device_name capacity supplier created_by : String)
    (notes image_url : Option String) : Shipment :=
  { id := st.nextId, qr_code := qr, imei := imei, device_name := device_name
    capacity := capacity, supplier := supplier, status := DEFAULT_STATUS
    sent_time := now, received_time := none, notes := notes
    created_by := created_by, updated_by := none, image_url := image_url }

/-- Modelled from the spec: `save_shipment` in `database.py` (not among the
sources).  `qr_code` must be non-empty (else `ValidationError`) and not already
present (else `DuplicateQrCode`); on success it inserts a new shipment with
status `DEFAULT_STATUS`, `sent_time` = now, `received_time` = null, and appends
one AuditEntry of kind "created". -/
def save_shipment (st : StoreState) (now : Nat)
    (qr imei device_name capacity supplier created_by : String)
    (notes image_url : Option String) : Except StoreError (StoreState × Shipment) :=
  if qr = "" then Except.error StoreError.ValidationError
  else if (get_shipment_by_qr_code st qr).isSome then Except.error StoreError.DuplicateQrCode
  else
    let s := newShipment st now qr imei device_name capacity supplier created_by notes image_url
    let entry : AuditEntry :=
      { shipment_id := st.nextId, field_changed := "created", old_value := ""
        new_value := DEFAULT_STATUS, actor := created_by, time := now }
    Except.ok ({ shipments := st.shipments ++ [s], audit := entry :: st.audit
                 nextId := st.nextId + 1 }, s)

/-- Modelled from the spec: the per-record effect of a status transition in
`update_shipment_status` — set `status`, `updated_by`, `notes` if provided,
and set `received_time` = now the first time status becomes Received (never
overwritten afterwards). -/
def statusUpdatedShipment (s : Shipment) (now : Nat)
    (new_status updated_by : String) (notes : Option String) : Shipment :=
  { s with
    status := new_status
    updated_by := some updated_by
    notes := match notes with | some n => some n | none => s.notes
    received_time :=
      if new_status = "Đã nhận" ∧ s.received_time = none then some now
      else s.received_time }

/-- Replace the shipment whose id is `i` by `s'`, leaving all others in place. -/
def replaceById (l : List Shipment) (i : Nat) (s' : Shipment) : List Shipment :=
  l.map (fun t => if t.id = i then s' else t)

/-- Modelled from the spec: `update_shipment_status` in `database.py` (not
among the sources).  The target must exist (else `NotFound`) and `new_status`
must be in the fixed enumeration (else `InvalidStatus`); on success it applies
`statusUpdatedShipment` to the target and appends one AuditEntry recording the
old and new status.  The store performs the write unconditionally even when
the new status equals the current one. -/
def update_shipment_status (st : StoreState) (now : Nat)
    (qr new_status updated_by : String) (notes : Option String) :
    Except StoreError (StoreState × Shipment) :=
  match get_shipment_by_qr_code st qr with
  | none => Except.error StoreError.NotFound
  | some s =>
    if new_status ∈ STATUS_VALUES then
      let s' := statusUpdatedShipment s now new_status updated_by notes
      let entry : AuditEntry :=
        { shipment_id := s.id, field_changed := "status", old_value := s.status
          new_value := new_status, actor := updated_by, time := now }
      Except.ok ({ st with
                   shipments := replaceById st.shipments s.id s'
                   audit := entry :: st.audit }, s')
    else Except.error StoreError.InvalidStatus

/-- Modelled from the spec: the per-record effect of the full-record
correction path — every field may change, with the same `received_time`
monotonic-set rule when the status becomes Received. -/
def fullUpdatedShipment (s : Shipment) (now : Nat)
    (qr imei device_name capacity supplier status : String)
    (notes : Option String) (updated_by : String) (image_url : Option String) : Shipment :=
  { s with
    qr_code := qr, imei := imei, device_name := device_name
    capacity := capacity, supplier := supplier, status := status
    notes := notes, updated_by := some updated_by, image_url := image_url
    received_time :=
      if status = "Đã nhận" ∧ s.received_time = none then some now
      else s.received_time }

/-- Modelled from the spec: `update_shipment` in `database.py` (not among the
sources), the full-record correction path.  The target id must exist (else
`NotFound`), the new `qr_code` must be unique among all other records (else
`DuplicateQrCode`), the status must be in the enumeration (else
`InvalidStatus`); on success it applies `fullUpdatedShipment` to the target
and appends one AuditEntry summarizing the change. -/
def update_shipment (st : StoreState) (now : Nat) (shipment_id : Nat)
    (qr imei device_name capacity supplier status : String)
    (notes : Option String) (updated_by : String) (image_url : Option String) :
    Except StoreError (StoreState × Shipment) :=
  match st.shipments.find? (fun s => s.id == shipment_id) with
  | none => Except.error StoreError.NotFound
  | some s =>
    if ∃ t ∈ st.shipments, t.id ≠ shipment_id ∧ t.qr_code = qr then
      Except.error StoreError.DuplicateQrCode
    else if status ∈ STATUS_VALUES then
      let s' := fullUpdatedShipment s now qr imei device_name capacity supplier status
                  notes updated_by image_url
      let entry : AuditEntry :=
        { shipment_id := s.id, field_changed := "row", old_value := s.status
          new_value := status, actor := updated_by, time := now }
      Except.ok ({ st with
                   shipments := replaceById st.shipments s.id s'
                   audit := entry :: st.audit }, s')
    else Except.error StoreError.InvalidStatus

/-- Modelled from the spec: `get_audit_log(limit)` returns the audit entries
most recent first, capped at `limit` rows. -/
def get_audit_log (st : StoreState) (limit : Nat) : List AuditEntry :=
  st.audit.take limit

/- ------------------------------------------------------------------ -/
/- Operation traces over the store.                                    -/
/- ------------------------------------------------------------------ -/

/-- One write operation against the store, with its timestamp. -/
inductive Op where
  | save (now : Nat) (qr imei device_name capacity supplier created_by : String)
      (notes image_url : Option String)
  | updStatus (now : Nat) (qr new_status updated_by : String) (notes : Option String)
  | updFull (now : Nat) (shipment_id : Nat)
      (qr imei device_name capacity supplier status : String)
      (notes : Option String) (updated_by : String) (image_url : Option String)
deriving DecidableEq

/-- Apply one operation; a failing operation leaves the state unchanged
(write operations are atomic). -/
def applyOp (st : StoreState) : Op → StoreState
  | Op.save now qr imei dn cap sup cb n iu =>
    match save_shipment st now qr imei dn cap sup cb n iu with
    | Except.ok (st', _) => st'
    | Except.error _ => st
  | Op.updStatus now qr ns ub n =>
    match update_shipment_status st now qr ns ub n with
    | Except.ok (st', _) => st'
    | Except.error _ => st
  | Op.updFull now i qr imei dn cap sup status n ub iu =>
    match update_shipment st now i qr imei dn cap sup status n ub iu with
    | Except.ok (st', _) => st'
    | Except.error _ => st

/-- Run a trace of operations from the empty store. -/
def run (ops : List Op) : StoreState := ops.foldl applyOp initState

/-- Look a shipment up by its surrogate id. -/
def findShip (st : StoreState) (i : Nat) : Option Shipment :=
  st.shipments.find? (fun s => s.id == i)

/-- The shipment with id `i` has had status Received at some point of the
trace `ops`. -/
def everReceived (ops : List Op) (i : Nat) : Prop :=
  ∃ p rest, p ++ rest = ops ∧
    ∃ s ∈ (run p).shipments, s.id = i ∧ s.status = "Đã nhận"

/- ------------------------------------------------------------------ -/
/- UI flows embedded from src/app.py.                                  -/
/- ------------------------------------------------------------------ -/

/-- Embedded from `src/app.py` (`receive_shipment_screen`, the block after a
successful camera decode): the QR identifier the receive flow ends up with.
It starts from the parsed `qr_code`; if that strips to empty while the raw
text is non-empty, the first comma-delimited segment of the raw text, stripped,
is substituted. -/
def receiveEffectiveQr (parsed : QRData) (qr_text : String) : String :=
  let qr := parsed.qr_code
  if pyStrip qr = "" ∧ qr_text ≠ "" then pyStrip ((pySplitComma qr_text).getD 0 "")
  else qr

/-- Embedded from `src/app.py` (`receive_shipment_screen`): the lookup key the
receive flow passes to `get_shipment_by_qr_code`, or `none` when the effective
QR identifier strips to empty and the lookup is skipped. -/
def receiveLookupKey (parsed : QRData) (qr_text : String) : Option String :=
  let qr := receiveEffectiveQr parsed qr_text
  if pyStrip qr ≠ "" then some qr else none

/-- Embedded from `src/app.py` (`scan_qr_screen`, the block after a successful
camera decode): the create-scan flow strips the parsed `qr_code` and performs
the duplicate lookup only when it is non-empty; it never substitutes anything
from the raw text. -/
def createFlowLookupKey (parsed : QRData) : Option String :=
  let qr := pyStrip parsed.qr_code
  if qr ≠ "" then some qr else none

/-- The action taken by the status-update forms in `src/app.py` on submit. -/
inductive UpdateFormAction where
  | warnSameStatus
  | storeUpdate (qr new_status updated_by : String) (notes : Option String)
deriving DecidableEq

/-- Embedded from `src/app.py` (`show_update_shipment_form` and the analogous
block of `show_shipment_info`): the store write is attempted only when the
selected status differs from the current one; otherwise a warning is shown and
`update_shipment_status` is never called. -/
def updateFormSubmit (current_status new_status qr updated_by notes : String) :
    UpdateFormAction :=
  if new_status ≠ current_status then
    UpdateFormAction.storeUpdate qr new_status updated_by
      (if notes ≠ "" then some notes else none)
  else
    UpdateFormAction.warnSameStatus

/-- Observable user-facing events of the update-form handler. -/
inductive Event where
  | storeWrite (qr new_status : String)
  | notifyReceived (shipment_id : Nat)
  | warnNotifyFailed
  | showError
  | warnSame
deriving DecidableEq

/-- Embedded from `src/app.py` (`show_update_shipment_form`, the submit
handler): if the new status differs, the store write runs first; only on a
successful write with new status Received is the notification sent (once); a
failed notification only adds a warning and never touches the store state. The
boolean `notifyOk` stands for the external Telegram delivery outcome. -/
def showUpdateSubmit (st : StoreState) (now : Nat) (found : Shipment)
    (new_status updated_by notes : String) (notifyOk : Bool) :
    StoreState × List Event :=
  if new_status ≠ found.status then
    match update_shipment_status st now found.qr_code new_status updated_by
        (if notes ≠ "" then some notes else none) with
    | Except.ok (st', _) =>
      if new_status = "Đã nhận" then
        (st', Event.storeWrite found.qr_code new_status ::
              Event.notifyReceived found.id ::
              (if notifyOk then [] else [Event.warnNotifyFailed]))
      else
        (st', [Event.storeWrite found.qr_code new_status])
    | Except.error _ => (st, [Event.showError])
  else
    (st, [Event.warnSame])

/-- Outcome of the create-shipment form submission in `src/app.py`. -/
inductive CreateFormResult where
  | validationError (field : String)
  | save (qr imei device_name capacity : String)
deriving DecidableEq

/-- Embedded from `src/app.py` (`show_create_shipment_form`, the save-button
handler): each of the four scanned fields is validated to be non-empty after
stripping, in order, and only when all four pass is `save_shipment` called,
with the stripped values. -/
def createFormSubmit (qr imei device_name capacity : String) : CreateFormResult :=
  if pyStrip qr = "" then CreateFormResult.validationError "qr_code"
  else if pyStrip imei = "" then CreateFormResult.validationError "imei"
  else if pyStrip device_name = "" then CreateFormResult.validationError "device_name"
  else if pyStrip capacity = "" then CreateFormResult.validationError "capacity"
  else CreateFormResult.save (pyStrip qr) (pyStrip imei) (pyStrip device_name) (pyStrip capacity)

/-- Invariant of reachable store states: ids are bounded by `nextId` and
pairwise distinct, every status is in the enumeration, and a shipment whose
status is Received has a non-null `received_time`. -/
def GoodState (st : StoreState) : Prop :=
  (∀ s ∈ st.shipments, s.id < st.nextId) ∧
  st.shipments.Pairwise (fun a b => a.id ≠ b.id) ∧
  (∀ s ∈ st.shipments, s.status ∈ STATUS_VALUES) ∧
  (∀ s ∈ st.shipments, s.status = "Đã nhận" → s.received_time ≠ none)

/- ------------------------------------------------------------------ -/
/- Concrete data used by the witness theorems.                         -/
/- ------------------------------------------------------------------ -/

/-- A concrete create operation used by witnesses. -/
def demoCreateOp : Op := Op.save 1 "A" "i" "d" "c" "GHN" "alice" none none

/-- The shipment record produced by `demoCreateOp` on the empty store. -/
def demoCreatedShip : Shipment :=
  { id := 1, qr_code := "A", imei := "i", device_name := "d", capacity := "c"
    supplier := "GHN", status := "Đang gửi", sent_time := 1, received_time := none
    notes := none, created_by := "alice", updated_by := none, image_url := none }

/-- The store holding exactly the shipment created by `demoCreateOp`. -/
def demoSt : StoreState := run [demoCreateOp]

/-- Create, mark Received, then mark Damaged. -/
def demoOps : List Op :=
  [demoCreateOp, Op.updStatus 2 "A" "Đã nhận" "alice" none,
   Op.updStatus 3 "A" "Hư hỏng" "bob" none]

/-- The first two operations of `demoOps`. -/
def demoOps2 : List Op := [demoCreateOp, Op.updStatus 2 "A" "Đã nhận" "alice" none]

/-- The demo shipment after being marked Received at time 2. -/
def demoShipRec : Shipment :=
  { id := 1, qr_code := "A", imei := "i", device_name := "d", capacity := "c"
    supplier := "GHN", status := "Đã nhận", sent_time := 1, received_time := some 2
    notes := none, created_by := "alice", updated_by := some "alice", image_url := none }

/-- The demo shipment after "bob" marks it Received at time 2. -/
def demoShipRecBob : Shipment :=
  { id := 1, qr_code := "A", imei := "i", device_name := "d", capacity := "c"
    supplier := "GHN", status := "Đã nhận", sent_time := 1, received_time := some 2
    notes := none, created_by := "alice", updated_by := some "bob", image_url := none }

/-- The store after "bob" marks the demo shipment Received at time 2. -/
def demoC9St : StoreState :=
  { shipments := [demoShipRecBob]
    audit := [{ shipment_id := 1, field_changed := "status", old_value := "Đang gửi"
                new_value := "Đã nhận", actor := "bob", time := 2 },
              { shipment_id := 1, field_changed := "created", old_value := ""
                new_value := "Đang gửi", actor := "alice", time := 1 }]
    nextId := 2 }

/-- The demo shipment after the later transition to Damaged at time 3:
`received_time` still carries the value set at time 2. -/
def demoShipFinal : Shipment :=
  { id := 1, qr_code := "A", imei := "i", device_name := "d", capacity := "c"
    supplier := "GHN", status := "Hư hỏng", sent_time := 1, received_time := some 2
    notes := none, created_by := "alice", updated_by := some "bob", image_url := none }

/- ------------------------------------------------------------------ -/
/- General list helper lemmas.                                         -/
/- ------------------------------------------------------------------ -/

theorem find?_append_left {α} {p : α → Bool} {l₁ l₂ : List α} {a : α}
    (h : l₁.find? p = some a) : (l₁ ++ l₂).find? p = some a := by
  induction l₁ with
  | nil => simp at h
  | cons x xs ih =>
    cases hx : p x with
    | true =>
      rw [List.find?_cons_of_pos _ hx] at h
      rw [List.cons_append, List.find?_cons_of_pos _ hx]
      exact h
    | false =>
      have hx' : ¬ p x = true := by simp [hx]
      rw [List.find?_cons_of_neg _ hx'] at h
      rw [List.cons_append, List.find?_cons_of_neg _ hx']
      exact ih h

theorem find?_map_comm {α} {p : α → Bool} {f : α → α}
    (hf : ∀ t, p (f t) = p t) (l : List α) :
    (l.map f).find? p = (l.find? p).map f := by
  induction l with
  | nil => simp
  | cons x xs ih =>
    cases hx : p x with
    | true =>
      rw [List.map_cons, List.find?_cons_of_pos _ (by rw [hf]; exact hx),
        List.find?_cons_of_pos _ hx]
      simp
    | false =>
      have hx' : ¬ p x = true := by simp [hx]
      rw [List.map_cons, List.find?_cons_of_neg _ (by rw [hf]; simp [hx]),
        List.find?_cons_of_neg _ hx']
      exact ih

theorem key_unique {α} {k : α → Nat} {l : List α}
    (hp : l.Pairwise fun a b => k a ≠ k b) {a b : α}
    (ha : a ∈ l) (hb : b ∈ l) (h : k a = k b) : a = b := by
  induction l with
  | nil => cases ha
  | cons x xs ih =>
    rcases List.pairwise_cons.mp hp with ⟨hx, hxs⟩
    rcases List.mem_cons.mp ha with rfl | ha' <;> rcases List.mem_cons.mp hb with rfl | hb'
    · rfl
    · exact absurd h (hx _ hb')
    · exact absurd h.symm (hx _ ha')
    · exact ih hxs ha' hb'

theorem find?_key_of_mem_unique {α} {k : α → Nat} {l : List α}
    (hp : l.Pairwise fun a b => k a ≠ k b) {s : α} (hs : s ∈ l) :
    l.find? (fun t => k t == k s) = some s := by
  induction l with
  | nil => cases hs
  | cons x xs ih =>
    rcases List.pairwise_cons.mp hp with ⟨hx, hxs⟩
    by_cases hk : k x = k s
    · have hxe : x = s := key_unique hp (List.mem_cons_self _ _) hs hk
      subst hxe
      rw [List.find?_cons_of_pos _ (by simp)]
    · rcases List.mem_cons.mp hs with rfl | hs'
      · exact absurd rfl hk
      · rw [List.find?_cons_of_neg _ (by simp [hk])]
        exact ih hxs hs'

theorem save_shipment_ok {st : StoreState} {now : Nat}
    {qr imei dn cap sup cb : String} {n iu : Option String} {st' : StoreState} {s : Shipment}
    (h : save_shipment st now qr imei dn cap sup cb n iu = Except.ok (st', s)) :
    qr ≠ "" ∧ get_shipment_by_qr_code st qr = none ∧
    s = newShipment st now qr imei dn cap sup cb n iu ∧
    st' = { shipments := st.shipments ++ [newShipment st now qr imei dn cap sup cb n iu]
            audit := { shipment_id := st.nextId, field_changed := "created", old_value := ""
                       new_value := DEFAULT_STATUS, actor := cb, time := now } :: st.audit
            nextId := st.nextId + 1 } := by
  by_cases h1 : qr = ""
  · simp [save_shipment, h1] at h
  · cases hf : get_shipment_by_qr_code st qr with
    | some x => simp [save_shipment, h1, hf] at h
    | none =>
      simp only [save_shipment, h1, hf, Option.isSome_none, Bool.false_eq_true, if_false,
        ite_false, Except.ok.injEq, Prod.mk.injEq] at h
      exact ⟨h1, rfl, h.2.symm, h.1.symm⟩

theorem update_shipment_status_ok {st : StoreState} {now : Nat}
    {qr ns ub : String} {n : Option String} {st' : StoreState} {s' : Shipment}
    (h : update_shipment_status st now qr ns ub n = Except.ok (st', s')) :
    ∃ s, get_shipment_by_qr_code st qr = some s ∧ ns ∈ STATUS_VALUES ∧
      s' = statusUpdatedShipment s now ns ub n ∧
      st' = { st with
              shipments := replaceById st.shipments s.id (statusUpdatedShipment s now ns ub n)
              audit := { shipment_id := s.id, field_changed := "status", old_value := s.status
                         new_value := ns, actor := ub, time := now } :: st.audit } := by
  cases hf : get_shipment_by_qr_code st qr with
  | none => simp [update_shipment_status, hf] at h
  | some s =>
    by_cases hm : ns ∈ STATUS_VALUES
    · simp only [update_shipment_status, hf, if_pos hm, Except.ok.injEq, Prod.mk.injEq] at h
      exact ⟨s, rfl, hm, h.2.symm, h.1.symm⟩
    · simp [update_shipment_status, hf, hm] at h

theorem update_shipment_status_notFound (st : StoreState) (now : Nat)
    (qr ns ub : String) (n : Option String)
    (hf : get_shipment_by_qr_code st qr = none) :
    update_shipment_status st now qr ns ub n = Except.error StoreError.NotFound := by
  simp [update_shipment_status, hf]

theorem update_shipment_ok {st : StoreState} {now : Nat} {i : Nat}
    {qr imei dn cap sup status : String} {n : Option String} {ub : String} {iu : Option String}
    {st' : StoreState} {s' : Shipment}
    (h : update_shipment st now i qr imei dn cap sup status n ub iu = Except.ok (st', s')) :
    ∃ s, st.shipments.find? (fun t => t.id == i) = some s ∧ status ∈ STATUS_VALUES ∧
      s' = fullUpdatedShipment s now qr imei dn cap sup status n ub iu ∧
      st' = { st with
              shipments := replaceById st.shipments s.id
                (fullUpdatedShipment s now qr imei dn cap sup status n ub iu)
              audit := { shipment_id := s.id, field_changed := "row", old_value := s.status
                         new_value := status, actor := ub, time := now } :: st.audit } := by
  cases hf : st.shipments.find? (fun t => t.id == i) with
  | none => simp [update_shipment, hf] at h
  | some s =>
    by_cases hd : ∃ t ∈ st.shipments, t.id ≠ i ∧ t.qr_code = qr
    · simp [update_shipment, hf, hd] at h
    · by_cases hm : status ∈ STATUS_VALUES
      · simp only [update_shipment, hf, if_neg hd, if_pos hm, Except.ok.injEq,
          Prod.mk.injEq] at h
        exact ⟨s, rfl, hm, h.2.symm, h.1.symm⟩
      · simp [update_shipment, hf, hd, hm] at h

theorem applyOp_save_eq (st : StoreState) (now : Nat)
    (qr imei dn cap sup cb : String) (n iu : Option String) :
    applyOp st (Op.save now qr imei dn cap sup cb n iu) = st ∨
    ∃ st' s, save_shipment st now qr imei dn cap sup cb n iu = Except.ok (st', s) ∧
      applyOp st (Op.save now qr imei dn cap sup cb n iu) = st' := by
  cases h : save_shipment st now qr imei dn cap sup cb n iu with
  | ok p => exact Or.inr ⟨p.1, p.2, rfl, by simp [applyOp, h]⟩
  | error e => exact Or.inl (by simp [applyOp, h])

theorem applyOp_updStatus_eq (st : StoreState) (now : Nat)
    (qr ns ub : String) (n : Option String) :
    applyOp st (Op.updStatus now qr ns ub n) = st ∨
    ∃ st' s', update_shipment_status st now qr ns ub n = Except.ok (st', s') ∧
      applyOp st (Op.updStatus now qr ns ub n) = st' := by
  cases h : update_shipment_status st now qr ns ub n with
  | ok p => exact Or.inr ⟨p.1, p.2, rfl, by simp [applyOp, h]⟩
  | error e => exact Or.inl (by simp [applyOp, h])

theorem applyOp_updFull_eq (st : StoreState) (now : Nat) (i : Nat)
    (qr imei dn cap sup status : String) (n : Option String) (ub : String) (iu : Option String) :
    applyOp st (Op.updFull now i qr imei dn cap sup status n ub iu) = st ∨
    ∃ st' s', update_shipment st now i qr imei dn cap sup status n ub iu = Except.ok (st', s') ∧
      applyOp st (Op.updFull now i qr imei dn cap sup status n ub iu) = st' := by
  cases h : update_shipment st now i qr imei dn cap sup status n ub iu with
  | ok p => exact Or.inr ⟨p.1, p.2, rfl, by simp [applyOp, h]⟩
  | error e => exact Or.inl (by simp [applyOp, h])

/- ------------------------------------------------------------------ -/
/- The inductive invariant of reachable store states.                  -/
/- ------------------------------------------------------------------ -/

theorem goodState_init : GoodState initState := by
  refine ⟨?_, ?_, ?_, ?_⟩ <;> simp [initState]

theorem mem_replaceById {l : List Shipment} {i : Nat} {s' u : Shipment}
    (hu : u ∈ replaceById l i s') : ∃ t ∈ l, u = if t.id = i then s' else t := by
  obtain ⟨t, ht, hft⟩ := List.mem_map.mp hu
  exact ⟨t, ht, hft.symm⟩

theorem replaceById_preserves_id {i : Nat} {s' : Shipment} (h : s'.id = i) (t : Shipment) :
    (if t.id = i then s' else t).id = t.id := by
  by_cases ht : t.id = i <;> simp [ht, h]

theorem statusUpdatedShipment_id (s : Shipment) (now : Nat) (ns ub : String)
    (n : Option String) : (statusUpdatedShipment s now ns ub n).id = s.id := rfl

theorem fullUpdatedShipment_id (s : Shipment) (now : Nat) (qr imei dn cap sup status : String)
    (n : Option String) (ub : String) (iu : Option String) :
    (fullUpdatedShipment s now qr imei dn cap sup status n ub iu).id = s.id := rfl

theorem goodState_applyOp {st : StoreState} (hg : GoodState st) (op : Op) :
    GoodState (applyOp st op) := by
  obtain ⟨h1, h2, h3, h4⟩ := hg
  cases op with
  | save now qr imei dn cap sup cb n iu =>
    rcases applyOp_save_eq st now qr imei dn cap sup cb n iu with heq | ⟨st', s, hok, heq⟩
    · rw [heq]; exact ⟨h1, h2, h3, h4⟩
    · obtain ⟨hq, hf, hs, hst⟩ := save_shipment_ok hok
      rw [heq, hst]
      refine ⟨?_, ?_, ?_, ?_⟩
      · intro t ht
        rcases List.mem_append.mp ht with ht | ht
        · exact Nat.lt_succ_of_lt (h1 t ht)
        · simp only [List.mem_singleton] at ht
          subst ht
          simp [newShipment]
      · refine List.pairwise_append.mpr ⟨h2, by simp, ?_⟩
        intro a ha b hb
        simp only [List.mem_singleton] at hb
        subst hb
        have := h1 a ha
        simp only [newShipment]
        omega
      · intro t ht
        rcases List.mem_append.mp ht with ht | ht
        · exact h3 t ht
        · simp only [List.mem_singleton] at ht
          subst ht
          simp [newShipment, DEFAULT_STATUS, STATUS_VALUES]
      · intro t ht hrec
        rcases List.mem_append.mp ht with ht | ht
        · exact h4 t ht hrec
        · simp only [List.mem_singleton] at ht
          subst ht
          exact absurd hrec (by simp [newShipment, DEFAULT_STATUS])
  | updStatus now qr ns ub n =>
    rcases applyOp_updStatus_eq st now qr ns ub n with heq | ⟨st', s', hok, heq⟩
    · rw [heq]; exact ⟨h1, h2, h3, h4⟩
    · obtain ⟨s, hf, hm, hs', hst⟩ := update_shipment_status_ok hok
      rw [heq, hst]
      refine ⟨?_, ?_, ?_, ?_⟩
      · intro u hu
        obtain ⟨t, ht, hut⟩ := mem_replaceById hu
        have hid : u.id = t.id := by
          rw [hut]; exact replaceById_preserves_id (statusUpdatedShipment_id s now ns ub n) t
        rw [hid]
        exact h1 t ht
      · rw [replaceById, List.pairwise_map]
        refine h2.imp ?_
        intro a b hab
        rw [replaceById_preserves_id (statusUpdatedShipment_id s now ns ub n),
          replaceById_preserves_id (statusUpdatedShipment_id s now ns ub n)]
        exact hab
      · intro u hu
        obtain ⟨t, ht, hut⟩ := mem_replaceById hu
        by_cases hti : t.id = s.id
        · rw [hut, if_pos hti]
          exact hm
        · rw [hut, if_neg hti]
          exact h3 t ht
      · intro u hu hrec
        obtain ⟨t, ht, hut⟩ := mem_replaceById hu
        by_cases hti : t.id = s.id
        · rw [hut, if_pos hti]
          rw [hut, if_pos hti] at hrec
          simp only [statusUpdatedShipment] at hrec ⊢
          cases hrt : s.received_time with
          | none => simp [hrec, hrt]
          | some v => simp [hrt]
        · rw [hut, if_neg hti]
          rw [hut, if_neg hti] at hrec
          exact h4 t ht hrec
  | updFull now i qr imei dn cap sup status n ub iu =>
    rcases applyOp_updFull_eq st now i qr imei dn cap sup status n ub iu with
      heq | ⟨st', s', hok, heq⟩
    · rw [heq]; exact ⟨h1, h2, h3, h4⟩
    · obtain ⟨s, hf, hm, hs', hst⟩ := update_shipment_ok hok
      rw [heq, hst]
      refine ⟨?_, ?_, ?_, ?_⟩
      · intro u hu
        obtain ⟨t, ht, hut⟩ := mem_replaceById hu
        have hid : u.id = t.id := by
          rw [hut]
          exact replaceById_preserves_id
            (fullUpdatedShipment_id s now qr imei dn cap sup status n ub iu) t
        rw [hid]
        exact h1 t ht
      · rw [replaceById, List.pairwise_map]
        refine h2.imp ?_
        intro a b hab
        rw [replaceById_preserves_id
            (fullUpdatedShipment_id s now qr imei dn cap sup status n ub iu),
          replaceById_preserves_id
            (fullUpdatedShipment_id s now qr imei dn cap sup status n ub iu)]
        exact hab
      · intro u hu
        obtain ⟨t, ht, hut⟩ := mem_replaceById hu
        by_cases hti : t.id = s.id
        · rw [hut, if_pos hti]
          exact hm
        · rw [hut, if_neg hti]
          exact h3 t ht
      · intro u hu hrec
        obtain ⟨t, ht, hut⟩ := mem_replaceById hu
        by_cases hti : t.id = s.id
        · rw [hut, if_pos hti]
          rw [hut, if_pos hti] at hrec
          simp only [fullUpdatedShipment] at hrec ⊢
          cases hrt : s.received_time with
          | none => simp [hrec, hrt]
          | some v => simp [hrt]
        · rw [hut, if_neg hti]
          rw [hut, if_neg hti] at hrec
          exact h4 t ht hrec

theorem goodState_foldl (ops : List Op) :
    ∀ st : StoreState, GoodState st → GoodState (ops.foldl applyOp st) := by
  induction ops with
  | nil => intro st h; exact h
  | cons op rest ih =>
    intro st h
    exact ih (applyOp st op) (goodState_applyOp h op)

theorem goodState_run (ops : List Op) : GoodState (run ops) :=
  goodState_foldl ops initState goodState_init

theorem run_concat (l : List Op) (op : Op) : run (l ++ [op]) = applyOp (run l) op := by
  simp [run, List.foldl_append]

/- ------------------------------------------------------------------ -/
/- Monotonicity of received_time along traces.                         -/
/- ------------------------------------------------------------------ -/

theorem findShip_mem {st : StoreState} {i : Nat} {s : Shipment}
    (h : findShip st i = some s) : s ∈ st.shipments ∧ s.id = i := by
  refine ⟨List.mem_of_find?_eq_some h, ?_⟩
  have := List.find?_some h
  simpa using this

theorem findShip_of_mem {st : StoreState} (hg : GoodState st) {s : Shipment}
    (hs : s ∈ st.shipments) : findShip st s.id = some s := by
  obtain ⟨-, h2, -, -⟩ := hg
  exact find?_key_of_mem_unique (k := fun t => t.id) h2 hs

theorem rt_mono_applyOp {st : StoreState} (hg : GoodState st) (op : Op)
    {i v : Nat} {s : Shipment}
    (hfind : findShip st i = some s) (hrt : s.received_time = some v) :
    ∃ s', findShip (applyOp st op) i = some s' ∧ s'.received_time = some v := by
  obtain ⟨h1, h2, h3, h4⟩ := hg
  obtain ⟨hmem, hid⟩ := findShip_mem hfind
  cases op with
  | save now qr imei dn cap sup cb n iu =>
    rcases applyOp_save_eq st now qr imei dn cap sup cb n iu with heq | ⟨st', s0, hok, heq⟩
    · rw [heq]; exact ⟨s, hfind, hrt⟩
    · obtain ⟨-, -, -, hst⟩ := save_shipment_ok hok
      rw [heq, hst]
      exact ⟨s, find?_append_left hfind, hrt⟩
  | updStatus now qr ns ub n =>
    rcases applyOp_updStatus_eq st now qr ns ub n with heq | ⟨st', s', hok, heq⟩
    · rw [heq]; exact ⟨s, hfind, hrt⟩
    · obtain ⟨s0, hf, hm, hs', hst⟩ := update_shipment_status_ok hok
      rw [heq, hst]
      have hmem0 : s0 ∈ st.shipments := List.mem_of_find?_eq_some hf
      have hkey : ∀ t : Shipment,
          ((if t.id = s0.id then statusUpdatedShipment s0 now ns ub n else t).id == i) =
            (t.id == i) := by
        intro t
        rw [replaceById_preserves_id (statusUpdatedShipment_id s0 now ns ub n)]
      have hfind' : findShip { st with
            shipments := replaceById st.shipments s0.id (statusUpdatedShipment s0 now ns ub n)
            audit := { shipment_id := s0.id, field_changed := "status", old_value := s0.status
                       new_value := ns, actor := ub, time := now } :: st.audit } i =
          ((st.shipments.find? (fun t => t.id == i)).map
            (fun t => if t.id = s0.id then statusUpdatedShipment s0 now ns ub n else t)) := by
        simpa [findShip, replaceById] using find?_map_comm hkey st.shipments
      rw [hfind']
      rw [show st.shipments.find? (fun t => t.id == i) = some s from hfind]
      by_cases hsi : s.id = s0.id
      · have hse : s = s0 := key_unique (k := fun t => t.id) h2 hmem hmem0 hsi
        subst hse
        refine ⟨statusUpdatedShipment s now ns ub n, by simp, ?_⟩
        simp only [statusUpdatedShipment, hrt]
        simp
      · exact ⟨s, by simp [hsi], hrt⟩
  | updFull now j qr imei dn cap sup status n ub iu =>
    rcases applyOp_updFull_eq st now j qr imei dn cap sup status n ub iu with
      heq | ⟨st', s', hok, heq⟩
    · rw [heq]; exact ⟨s, hfind, hrt⟩
    · obtain ⟨s0, hf, hm, hs', hst⟩ := update_shipment_ok hok
      rw [heq, hst]
      have hmem0 : s0 ∈ st.shipments := List.mem_of_find?_eq_some hf
      have hkey : ∀ t : Shipment,
          ((if t.id = s0.id then
              fullUpdatedShipment s0 now qr imei dn cap sup status n ub iu else t).id == i) =
            (t.id == i) := by
        intro t
        rw [replaceById_preserves_id
          (fullUpdatedShipment_id s0 now qr imei dn cap sup status n ub iu)]
      have hfind' : findShip { st with
            shipments := replaceById st.shipments s0.id
              (fullUpdatedShipment s0 now qr imei dn cap sup status n ub iu)
            audit := { shipment_id := s0.id, field_changed := "row", old_value := s0.status
                       new_value := status, actor := ub, time := now } :: st.audit } i =
          ((st.shipments.find? (fun t => t.id == i)).map
            (fun t => if t.id = s0.id then
              fullUpdatedShipment s0 now qr imei dn cap sup status n ub iu else t)) := by
        simpa [findShip, replaceById] using find?_map_comm hkey st.shipments
      rw [hfind']
      rw [show st.shipments.find? (fun t => t.id == i) = some s from hfind]
      by_cases hsi : s.id = s0.id
      · have hse : s = s0 := key_unique (k := fun t => t.id) h2 hmem hmem0 hsi
        subst hse
        refine ⟨fullUpdatedShipment s now qr imei dn cap sup status n ub iu, by simp, ?_⟩
        simp only [fullUpdatedShipment, hrt]
        simp
      · exact ⟨s, by simp [hsi], hrt⟩

theorem rt_mono_run (rest : List Op) :
    ∀ (p : List Op) {i v : Nat} {s : Shipment},
      findShip (run p) i = some s → s.received_time = some v →
      ∃ s', findShip (run (p ++ rest)) i = some s' ∧ s'.received_time = some v := by
  induction rest with
  | nil =>
    intro p i v s h1 h2
    rw [List.append_nil]
    exact ⟨s, h1, h2⟩
  | cons op rest ih =>
    intro p i v s h1 h2
    obtain ⟨s1, hf1, hrt1⟩ := rt_mono_applyOp (goodState_run p) op h1 h2
    rw [show p ++ op :: rest = (p ++ [op]) ++ rest by simp]
    exact ih (p ++ [op]) (by rwa [run_concat]) hrt1

/- ------------------------------------------------------------------ -/
/- received_time is set exactly when Received has been reached.        -/
/- ------------------------------------------------------------------ -/

theorem everReceived_extend {ops : List Op} (op : Op) {i : Nat}
    (h : everReceived ops i) : everReceived (ops ++ [op]) i := by
  obtain ⟨p, rest, hpr, hs⟩ := h
  exact ⟨p, rest ++ [op], by rw [← List.append_assoc, hpr], hs⟩

theorem everReceived_now {ops : List Op} {i : Nat} {s : Shipment}
    (hs : s ∈ (run ops).shipments) (hid : s.id = i) (hst : s.status = "Đã nhận") :
    everReceived ops i :=
  ⟨ops, [], List.append_nil ops, s, hs, hid, hst⟩

theorem rt_implies_ever (ops : List Op) :
    ∀ s ∈ (run ops).shipments, s.received_time ≠ none → everReceived ops s.id := by
  induction ops using List.reverseRecOn with
  | nil => intro s hs; simp [run, initState] at hs
  | append_singleton l op ih =>
    intro s hs hrt
    have hsOrig := hs
    rw [run_concat] at hs
    cases op with
    | save now qr imei dn cap sup cb n iu =>
      rcases applyOp_save_eq (run l) now qr imei dn cap sup cb n iu with heq | ⟨st', s0, hok, heq⟩
      · rw [heq] at hs
        exact everReceived_extend _ (ih s hs hrt)
      · obtain ⟨-, -, -, hst⟩ := save_shipment_ok hok
        rw [heq, hst] at hs
        rcases List.mem_append.mp hs with hs | hs
        · exact everReceived_extend _ (ih s hs hrt)
        · simp only [List.mem_singleton] at hs
          subst hs
          exact absurd rfl hrt
    | updStatus now qr ns ub n =>
      rcases applyOp_updStatus_eq (run l) now qr ns ub n with heq | ⟨st', s', hok, heq⟩
      · rw [heq] at hs
        exact everReceived_extend _ (ih s hs hrt)
      · obtain ⟨s0, hf, hm, hs', hst⟩ := update_shipment_status_ok hok
        rw [heq, hst] at hs
        obtain ⟨t, ht, hut⟩ := mem_replaceById hs
        by_cases hti : t.id = s0.id
        · rw [if_pos hti] at hut
          by_cases hns : ns = "Đã nhận"
          · refine everReceived_now hsOrig rfl ?_
            rw [hut]
            exact hns
          · have hrt0 : s0.received_time ≠ none := by
              rw [hut] at hrt
              simp only [statusUpdatedShipment, hns, false_and, if_neg, ite_false] at hrt
              simpa using hrt
            have hm0 : s0 ∈ (run l).shipments := List.mem_of_find?_eq_some hf
            have hev := ih s0 hm0 hrt0
            have : s.id = s0.id := by rw [hut]; rfl
            rw [this]
            exact everReceived_extend _ hev
        · rw [if_neg hti] at hut
          rw [hut] at hrt ⊢
          exact everReceived_extend _ (ih t ht hrt)
    | updFull now j qr imei dn cap sup status n ub iu =>
      rcases applyOp_updFull_eq (run l) now j qr imei dn cap sup status n ub iu with
        heq | ⟨st', s', hok, heq⟩
      · rw [heq] at hs
        exact everReceived_extend _ (ih s hs hrt)
      · obtain ⟨s0, hf, hm, hs', hst⟩ := update_shipment_ok hok
        rw [heq, hst] at hs
        obtain ⟨t, ht, hut⟩ := mem_replaceById hs
        by_cases hti : t.id = s0.id
        · rw [if_pos hti] at hut
          by_cases hns : status = "Đã nhận"
          · refine everReceived_now hsOrig rfl ?_
            rw [hut]
            exact hns
          · have hrt0 : s0.received_time ≠ none := by
              rw [hut] at hrt
              simp only [fullUpdatedShipment, hns, false_and, if_neg, ite_false] at hrt
              simpa using hrt
            have hm0 : s0 ∈ (run l).shipments := List.mem_of_find?_eq_some hf
            have hev := ih s0 hm0 hrt0
            have : s.id = s0.id := by rw [hut]; rfl
            rw [this]
            exact everReceived_extend _ hev
        · rw [if_neg hti] at hut
          rw [hut] at hrt ⊢
          exact everReceived_extend _ (ih t ht hrt)

theorem ever_implies_rt {ops : List Op} {i : Nat} (h : everReceived ops i) :
    ∀ s ∈ (run ops).shipments, s.id = i → s.received_time ≠ none := by
  obtain ⟨p, rest, hpr, s0, hs0, hid0, hst0⟩ := h
  have hgp := goodState_run p
  have hrt0 : s0.received_time ≠ none := hgp.2.2.2 s0 hs0 hst0
  cases hv : s0.received_time with
  | none => exact absurd hv hrt0
  | some v =>
    have hfind0 : findShip (run p) i = some s0 := by
      have hof := findShip_of_mem hgp hs0
      rwa [hid0] at hof
    obtain ⟨s1, hf1, hrt1⟩ := rt_mono_run rest p hfind0 hv
    rw [hpr] at hf1
    intro s hs hid
    have hgo := goodState_run ops
    obtain ⟨hmem1, hid1⟩ := findShip_mem hf1
    have hse : s = s1 :=
      key_unique (k := fun t => t.id) hgo.2.1 hs hmem1
        (by show s.id = s1.id; rw [hid, hid1])
    rw [hse, hrt1]
    simp

/- ------------------------------------------------------------------ -/
/- Codec lemmas.                                                       -/
/- ------------------------------------------------------------------ -/

theorem String_mk_data (s : String) : String.mk s.data = s := rfl

theorem pyStrip_empty : pyStrip "" = "" := rfl

theorem splitCommaAux_no_comma {xs : List Char} (h : ',' ∉ xs) (acc : List Char) :
    splitCommaAux xs acc = [acc.reverse ++ xs] := by
  induction xs generalizing acc with
  | nil => simp [splitCommaAux]
  | cons c cs ih =>
    have hc : c ≠ ',' := fun hce => h (hce ▸ List.mem_cons_self c cs)
    have h' : ',' ∉ cs := fun hm => h (List.mem_cons_of_mem _ hm)
    simp only [splitCommaAux, if_neg hc]
    rw [ih h']
    simp

theorem splitCommaAux_comma {xs : List Char} (rest : List Char) (h : ',' ∉ xs)
    (acc : List Char) :
    splitCommaAux (xs ++ ',' :: rest) acc = (acc.reverse ++ xs) :: splitCommaAux rest [] := by
  induction xs generalizing acc with
  | nil => simp [splitCommaAux]
  | cons c cs ih =>
    have hc : c ≠ ',' := fun hce => h (hce ▸ List.mem_cons_self c cs)
    have h' : ',' ∉ cs := fun hm => h (List.mem_cons_of_mem _ hm)
    simp only [List.cons_append, splitCommaAux, if_neg hc, List.append_eq]
    rw [ih h']
    simp

theorem encode_data (q i d c : String) :
    (encode_qr_payload q i d c).data =
      q.data ++ ',' :: (i.data ++ ',' :: (d.data ++ ',' :: c.data)) := by
  simp [encode_qr_payload, String.data_append]

theorem pySplitComma_encode {q i d c : String}
    (hq : ',' ∉ q.data) (hi : ',' ∉ i.data) (hd : ',' ∉ d.data) (hc : ',' ∉ c.data) :
    pySplitComma (encode_qr_payload q i d c) = [q, i, d, c] := by
  unfold pySplitComma
  rw [encode_data, splitCommaAux_comma _ hq, splitCommaAux_comma _ hi,
    splitCommaAux_comma _ hd, splitCommaAux_no_comma hc]
  simp [String_mk_data]

/- ------------------------------------------------------------------ -/
/- Idempotence of stripping.                                           -/
/- ------------------------------------------------------------------ -/

theorem dropWhile_dropWhile (p : α → Bool) (l : List α) :
    (l.dropWhile p).dropWhile p = l.dropWhile p := by
  induction l with
  | nil => rfl
  | cons a t ih =>
    by_cases h : p a
    · rw [List.dropWhile_cons_of_pos h, ih]
    · rw [List.dropWhile_cons_of_neg h, List.dropWhile_cons_of_neg h]

theorem head?_dropWhile {p : α → Bool} {l : List α} {a : α}
    (h : (l.dropWhile p).head? = some a) : p a = false := by
  induction l with
  | nil => simp at h
  | cons b t ih =>
    by_cases hb : p b
    · rw [List.dropWhile_cons_of_pos hb] at h
      exact ih h
    · rw [List.dropWhile_cons_of_neg hb] at h
      simp only [List.head?_cons, Option.some.injEq] at h
      subst h
      simpa using hb

theorem dropWhile_eq_self_of_head? {p : α → Bool} {l : List α}
    (h : ∀ a, l.head? = some a → p a = false) : l.dropWhile p = l := by
  cases l with
  | nil => rfl
  | cons a t =>
    have ha := h a rfl
    rw [List.dropWhile_cons_of_neg (by simp [ha])]

theorem getLast?_dropWhile {p : α → Bool} {l : List α}
    (h : l.dropWhile p ≠ []) : (l.dropWhile p).getLast? = l.getLast? := by
  induction l with
  | nil => simp at h
  | cons a t ih =>
    by_cases ha : p a
    · rw [List.dropWhile_cons_of_pos ha] at h ⊢
      have ht : t ≠ [] := by
        intro he
        subst he
        simp at h
      rw [ih h]
      cases t with
      | nil => exact absurd rfl ht
      | cons b r => rw [List.getLast?_cons_cons]
    · rw [List.dropWhile_cons_of_neg ha]

theorem trimChars_head? {l : List Char} {a : Char}
    (h : (trimChars l).head? = some a) : isPySpace a = false := by
  unfold trimChars at h
  rw [List.head?_reverse] at h
  have hne : (List.dropWhile isPySpace (List.dropWhile isPySpace l).reverse) ≠ [] := by
    intro he
    rw [he] at h
    simp at h
  rw [getLast?_dropWhile hne, List.getLast?_reverse] at h
  exact head?_dropWhile h

theorem trimChars_trimChars (l : List Char) : trimChars (trimChars l) = trimChars l := by
  have h1 : (trimChars l).dropWhile isPySpace = trimChars l :=
    dropWhile_eq_self_of_head? (fun a ha => trimChars_head? ha)
  show ((((trimChars l).dropWhile isPySpace).reverse).dropWhile isPySpace).reverse = trimChars l
  rw [h1]
  have h2 : (trimChars l).reverse = (l.dropWhile isPySpace).reverse.dropWhile isPySpace := by
    unfold trimChars
    rw [List.reverse_reverse]
  rw [h2, dropWhile_dropWhile]
  rfl

theorem pyStrip_pyStrip (s : String) : pyStrip (pyStrip s) = pyStrip s :=
  congrArg String.mk (trimChars_trimChars s.data)

/- ------------------------------------------------------------------ -/
/- Claim theorems.                                                     -/
/- ------------------------------------------------------------------ -/

/-- C1: every shipment observable in any store state reachable by a trace of
create/updateStatus/updateFull operations has a status belonging to the fixed
four-value enumeration `STATUS_VALUES`, every shipment produced by a
successful create has status `DEFAULT_STATUS` (Sending), and that default is
the first element of the enumeration. -/
theorem claim_C1_status_enum :
    (∀ ops : List Op, ∀ s ∈ (run ops).shipments, s.status ∈ STATUS_VALUES) ∧
    (∀ (st : StoreState) (now : Nat) (qr imei dn cap sup cb : String)
        (n iu : Option String) (st' : StoreState) (s : Shipment),
      save_shipment st now qr imei dn cap sup cb n iu = Except.ok (st', s) →
      s.status = DEFAULT_STATUS) ∧
    STATUS_VALUES.head? = some DEFAULT_STATUS := by
  refine ⟨?_, ?_, rfl⟩
  · intro ops s hs
    exact (goodState_run ops).2.2.1 s hs
  · intro st now qr imei dn cap sup cb n iu st' s h
    obtain ⟨-, -, hs, -⟩ := save_shipment_ok h
    rw [hs]
    rfl

/-- Witness for C1: the final shipment of the demo trace has a status in the
enumeration, and the concrete create on the empty store yields the default
status. -/
theorem claim_C1_status_enum_witness :
    demoShipFinal.status ∈ STATUS_VALUES ∧ demoCreatedShip.status = DEFAULT_STATUS := by
  constructor
  · exact claim_C1_status_enum.1 demoOps demoShipFinal (by decide)
  · exact claim_C1_status_enum.2.1 initState 1 "A" "i" "d" "c" "GHN" "alice" none none
      demoSt demoCreatedShip rfl

/-- C2: along every operation trace, a shipment's `received_time` is non-null
exactly when its status has at some point been Received; and once
`received_time` holds a value, that same value persists through every further
operation of the trace. -/
theorem claim_C2_received_time :
    (∀ ops : List Op, ∀ s ∈ (run ops).shipments,
      (s.received_time ≠ none ↔ everReceived ops s.id)) ∧
    (∀ (p rest : List Op) (i v : Nat) (s : Shipment),
      findShip (run p) i = some s → s.received_time = some v →
      ∃ s', findShip (run (p ++ rest)) i = some s' ∧ s'.received_time = some v) := by
  constructor
  · intro ops s hs
    constructor
    · exact fun h => rt_implies_ever ops s hs h
    · intro hev
      exact ever_implies_rt hev s hs rfl
  · intro p rest i v s h1 h2
    exact rt_mono_run rest p h1 h2

/-- Witness for C2: in the demo trace the final record (now Damaged) still has
`received_time` set, hence was Received at some point; and the value set at
time 2 survives the later transition to Damaged. -/
theorem claim_C2_received_time_witness :
    everReceived demoOps 1 ∧
    (∃ s', findShip (run (demoOps2 ++ [Op.updStatus 3 "A" "Hư hỏng" "bob" none])) 1 = some s' ∧
      s'.received_time = some 2) := by
  constructor
  · exact (claim_C2_received_time.1 demoOps demoShipFinal (by decide)).mp (by decide)
  · exact claim_C2_received_time.2 demoOps2 [Op.updStatus 3 "A" "Hư hỏng" "bob" none] 1 2
      demoShipRec rfl rfl

/-- C3 as stated is violated by the full-record correction path: create of
qr_code "A" succeeds, an update_shipment call renames record 1 to "B", and a
later create of "A" then succeeds instead of failing with DuplicateQrCode. -/
theorem claim_C3_counterexample :
    (save_shipment initState 1 "A" "i" "d" "c" "GHN" "alice" none none).isOk = true ∧
    (save_shipment
        (run [demoCreateOp, Op.updFull 2 1 "B" "i" "d" "c" "GHN" "Đang gửi" none "alice" none])
        3 "A" "i2" "d2" "c2" "GHN" "bob" none none).isOk = true :=
  ⟨rfl, rfl⟩

/-- C3 (amended): while a shipment with a given non-empty qr_code is present
in the store, create with that qr_code fails with DuplicateQrCode and leaves
the whole store state — every record and the audit log — unchanged. -/
theorem claim_C3_amended_duplicate :
    ∀ (st : StoreState) (now : Nat) (qr imei dn cap sup cb : String) (n iu : Option String),
      qr ≠ "" → (∃ s ∈ st.shipments, s.qr_code = qr) →
      save_shipment st now qr imei dn cap sup cb n iu =
        Except.error StoreError.DuplicateQrCode ∧
      applyOp st (Op.save now qr imei dn cap sup cb n iu) = st := by
  intro st now qr imei dn cap sup cb n iu hq hex
  obtain ⟨s, hs, hqr⟩ := hex
  have hsome : (get_shipment_by_qr_code st qr).isSome = true := by
    unfold get_shipment_by_qr_code
    exact List.find?_isSome.mpr ⟨s, hs, by simp [hqr]⟩
  have herr : save_shipment st now qr imei dn cap sup cb n iu =
      Except.error StoreError.DuplicateQrCode := by
    unfold save_shipment
    rw [if_neg hq, if_pos hsome]
  exact ⟨herr, by simp [applyOp, herr]⟩

/-- Witness for C3 (amended): with the demo record "A" present, a second
create of "A" fails with DuplicateQrCode and the store is unchanged. -/
theorem claim_C3_amended_duplicate_witness :
    save_shipment demoSt 2 "A" "x" "y" "z" "GHN" "bob" none none =
      Except.error StoreError.DuplicateQrCode ∧
    applyOp demoSt (Op.save 2 "A" "x" "y" "z" "GHN" "bob" none none) = demoSt :=
  claim_C3_amended_duplicate demoSt 2 "A" "x" "y" "z" "GHN" "bob" none none (by decide)
    ⟨demoCreatedShip, by decide, rfl⟩

/-- C4: updateStatus on a qr_code not present in the store returns NotFound,
no shipment record is modified, and the audit log is unchanged. -/
theorem claim_C4_update_notfound :
    ∀ (st : StoreState) (now : Nat) (qr ns ub : String) (n : Option String),
      get_shipment_by_qr_code st qr = none →
      update_shipment_status st now qr ns ub n = Except.error StoreError.NotFound ∧
      applyOp st (Op.updStatus now qr ns ub n) = st ∧
      (applyOp st (Op.updStatus now qr ns ub n)).audit = st.audit := by
  intro st now qr ns ub n hf
  have h1 := update_shipment_status_notFound st now qr ns ub n hf
  refine ⟨h1, ?_, ?_⟩ <;> simp [applyOp, h1]

/-- Witness for C4: updating "Z" on the empty store reports NotFound and
leaves the state and audit log unchanged. -/
theorem claim_C4_update_notfound_witness :
    update_shipment_status initState 1 "Z" "Đã nhận" "alice" none =
      Except.error StoreError.NotFound ∧
    applyOp initState (Op.updStatus 1 "Z" "Đã nhận" "alice" none) = initState ∧
    (applyOp initState (Op.updStatus 1 "Z" "Đã nhận" "alice" none)).audit = initState.audit :=
  claim_C4_update_notfound initState 1 "Z" "Đã nhận" "alice" none rfl

theorem getD_map_pyStrip (l : List String) (k : Nat) :
    (l.map pyStrip).getD k "" = pyStrip (l.getD k "") := by
  rw [show ("" : String) = pyStrip "" from rfl, List.getD_map]
  rfl

/-- C5: for every raw text, decode yields exactly the stripped comma-separated
segments in the fixed field order, with missing trailing segments defaulting
to the empty string; in particular the two concrete examples of the claim. -/
theorem claim_C5_decode :
    (∀ text : String,
      parse_qr_code text =
        { qr_code := pyStrip ((pySplitComma text).getD 0 "")
          imei := pyStrip ((pySplitComma text).getD 1 "")
          device_name := pyStrip ((pySplitComma text).getD 2 "")
          capacity := pyStrip ((pySplitComma text).getD 3 "") }) ∧
    parse_qr_code "QR1,IMEI1" = ⟨"QR1", "IMEI1", "", ""⟩ ∧
    parse_qr_code "" = ⟨"", "", "", ""⟩ := by
  refine ⟨?_, by decide, rfl⟩
  intro text
  simp only [parse_qr_code, getD_map_pyStrip]

/-- C6 as stated is violated for comma-free fields carrying edge whitespace:
all four fields below are comma-free, yet decoding the encoded payload does
not return the original fields (the leading field loses its trailing space). -/
theorem claim_C6_counterexample :
    ((',' ∉ "QR1 ".data) ∧ (',' ∉ "IMEI1".data) ∧ (',' ∉ "iPhone 15".data) ∧
      (',' ∉ "128GB".data)) ∧
    parse_qr_code (encode_qr_payload "QR1 " "IMEI1" "iPhone 15" "128GB") ≠
      ⟨"QR1 ", "IMEI1", "iPhone 15", "128GB"⟩ :=
  ⟨by decide, by decide⟩

/-- C6 (amended): for every 4-tuple of fields that are comma-free and carry no
leading or trailing whitespace, decoding the comma-joined payload returns the
original four fields unchanged. -/
theorem claim_C6_roundtrip :
    ∀ q i d c : String,
      ',' ∉ q.data → ',' ∉ i.data → ',' ∉ d.data → ',' ∉ c.data →
      pyStrip q = q → pyStrip i = i → pyStrip d = d → pyStrip c = c →
      parse_qr_code (encode_qr_payload q i d c) = ⟨q, i, d, c⟩ := by
  intro q i d c hq hi hd hc tq ti td tc
  have hsplit := pySplitComma_encode hq hi hd hc
  simp only [parse_qr_code, hsplit, List.map_cons, List.map_nil, tq, ti, td, tc]
  rfl

/-- Witness for C6 (amended) at the concrete fields of the specification. -/
theorem claim_C6_roundtrip_witness :
    parse_qr_code (encode_qr_payload "QR1" "IMEI1" "iPhone 15" "128GB") =
      ⟨"QR1", "IMEI1", "iPhone 15", "128GB"⟩ :=
  claim_C6_roundtrip "QR1" "IMEI1" "iPhone 15" "128GB" (by decide) (by decide) (by decide)
    (by decide) (by decide) (by decide) (by decide) (by decide)

/-- C7: when the parsed qr_code strips to empty but the raw text is non-empty,
the receive flow substitutes the stripped first comma-delimited segment of the
raw text as the QR identifier (and looks it up when non-empty), while the
create flow performs no substitution and skips the lookup. -/
theorem claim_C7_fallback :
    ∀ (parsed : QRData) (qr_text : String),
      pyStrip parsed.qr_code = "" → qr_text ≠ "" →
      receiveEffectiveQr parsed qr_text = pyStrip ((pySplitComma qr_text).getD 0 "") ∧
      (pyStrip ((pySplitComma qr_text).getD 0 "") ≠ "" →
        receiveLookupKey parsed qr_text = some (pyStrip ((pySplitComma qr_text).getD 0 ""))) ∧
      createFlowLookupKey parsed = none := by
  intro parsed qr_text he hne
  have h1 : receiveEffectiveQr parsed qr_text = pyStrip ((pySplitComma qr_text).getD 0 "") := by
    simp only [receiveEffectiveQr]
    rw [if_pos ⟨he, hne⟩]
  refine ⟨h1, ?_, ?_⟩
  · intro hseg
    simp only [receiveLookupKey, h1, pyStrip_pyStrip]
    rw [if_pos hseg]
  · simp only [createFlowLookupKey, he]
    simp

/-- Witness for C7: a parsed record with empty qr_code and raw text
"QRX,IMEI1" — the receive flow falls back to "QRX" and looks it up, the
create flow skips the lookup. -/
theorem claim_C7_fallback_witness :
    receiveEffectiveQr ⟨"", "IMEI1", "", ""⟩ "QRX,IMEI1" = "QRX" ∧
    receiveLookupKey ⟨"", "IMEI1", "", ""⟩ "QRX,IMEI1" = some "QRX" ∧
    createFlowLookupKey ⟨"", "IMEI1", "", ""⟩ = none := by
  obtain ⟨h1, h2, h3⟩ :=
    claim_C7_fallback ⟨"", "IMEI1", "", ""⟩ "QRX,IMEI1" (by decide) (by decide)
  refine ⟨?_, ?_, h3⟩
  · rw [h1]
    decide
  · rw [h2 (by decide)]
    decide

/-- C8: the status-update form issues a warning and never calls the store when
the selected status equals the current one; it calls the store exactly when
they differ; and the store itself imposes no same-status restriction — called
on a target whose current status already equals the new one, it still performs
the write unconditionally. -/
theorem claim_C8_same_status :
    ∀ (cur new qr user notes : String),
      (new = cur → updateFormSubmit cur new qr user notes = UpdateFormAction.warnSameStatus) ∧
      (new ≠ cur → updateFormSubmit cur new qr user notes =
        UpdateFormAction.storeUpdate qr new user (if notes ≠ "" then some notes else none)) ∧
      (∀ (st : StoreState) (now : Nat) (s : Shipment) (nt : Option String),
        get_shipment_by_qr_code st qr = some s → s.status = new → new ∈ STATUS_VALUES →
        update_shipment_status st now qr new user nt =
          Except.ok
            ({ st with
               shipments := replaceById st.shipments s.id (statusUpdatedShipment s now new user nt)
               audit := { shipment_id := s.id, field_changed := "status", old_value := s.status
                          new_value := new, actor := user, time := now } :: st.audit },
             statusUpdatedShipment s now new user nt)) := by
  intro cur new qr user notes
  refine ⟨?_, ?_, ?_⟩
  · intro he
    simp only [updateFormSubmit]
    rw [if_neg (by simp [he])]
  · intro hne
    simp only [updateFormSubmit]
    rw [if_pos hne]
  · intro st now s nt hf hsame hm
    simp only [update_shipment_status, hf]
    rw [if_pos hm]

/-- Witness for C8: selecting the current status "Đang gửi" again produces the
warning action, and calling the store directly with the same status "Đang gửi"
on the demo record still performs the write. -/
theorem claim_C8_same_status_witness :
    updateFormSubmit "Đang gửi" "Đang gửi" "A" "bob" "" = UpdateFormAction.warnSameStatus ∧
    update_shipment_status demoSt 2 "A" "Đang gửi" "bob" none =
      Except.ok
        ({ demoSt with
           shipments := replaceById demoSt.shipments demoCreatedShip.id
             (statusUpdatedShipment demoCreatedShip 2 "Đang gửi" "bob" none)
           audit := { shipment_id := demoCreatedShip.id, field_changed := "status"
                      old_value := demoCreatedShip.status, new_value := "Đang gửi"
                      actor := "bob", time := 2 } :: demoSt.audit },
         statusUpdatedShipment demoCreatedShip 2 "Đang gửi" "bob" none) := by
  constructor
  · exact (claim_C8_same_status "Đang gửi" "Đang gửi" "A" "bob" "").1 rfl
  · exact (claim_C8_same_status "Đang gửi" "Đang gửi" "A" "bob" "").2.2 demoSt 2
      demoCreatedShip none rfl rfl (by decide)

/-- C9: on a successful transition into Received by the update form, the
received-notification is emitted exactly once and strictly after the committed
store write, the resulting store state equals the state produced by the store
write whatever the notification outcome, and a notification failure leaves
that committed state untouched (the handler state is identical for a
successful and a failed delivery). -/
theorem claim_C9_notify_after_commit :
    ∀ (st : StoreState) (now : Nat) (found : Shipment) (user notes : String)
      (notifyOk : Bool) (st' : StoreState) (s' : Shipment),
      "Đã nhận" ≠ found.status →
      update_shipment_status st now found.qr_code "Đã nhận" user
          (if notes ≠ "" then some notes else none) = Except.ok (st', s') →
      (showUpdateSubmit st now found "Đã nhận" user notes notifyOk).1 = st' ∧
      (showUpdateSubmit st now found "Đã nhận" user notes notifyOk).2.count
        (Event.notifyReceived found.id) = 1 ∧
      (∃ tail, (showUpdateSubmit st now found "Đã nhận" user notes notifyOk).2 =
        Event.storeWrite found.qr_code "Đã nhận" :: Event.notifyReceived found.id :: tail) ∧
      (showUpdateSubmit st now found "Đã nhận" user notes true).1 =
        (showUpdateSubmit st now found "Đã nhận" user notes false).1 := by
  intro st now found user notes notifyOk st' s' hne hok
  have hform : ∀ b : Bool, showUpdateSubmit st now found "Đã nhận" user notes b =
      (st', Event.storeWrite found.qr_code "Đã nhận" ::
            Event.notifyReceived found.id ::
            (if b then [] else [Event.warnNotifyFailed])) := by
    intro b
    simp only [showUpdateSubmit]
    rw [if_pos hne, hok]
    simp
  refine ⟨?_, ?_, ?_, ?_⟩
  · rw [hform notifyOk]
  · rw [hform notifyOk]
    cases notifyOk <;>
      simp [List.count_cons, List.count_nil]
  · exact ⟨(if notifyOk then [] else [Event.warnNotifyFailed]), by rw [hform notifyOk]⟩
  · rw [hform true, hform false]

/-- Witness for C9: marking the demo shipment Received with a failing
notification delivery — the committed state stands, the notification event
appears exactly once right after the store write, and the state equals the
one obtained with a successful delivery. -/
theorem claim_C9_notify_after_commit_witness :
    (showUpdateSubmit demoSt 2 demoCreatedShip "Đã nhận" "bob" "" false).1 = demoC9St ∧
    (showUpdateSubmit demoSt 2 demoCreatedShip "Đã nhận" "bob" "" false).2.count
      (Event.notifyReceived demoCreatedShip.id) = 1 ∧
    (∃ tail, (showUpdateSubmit demoSt 2 demoCreatedShip "Đã nhận" "bob" "" false).2 =
      Event.storeWrite demoCreatedShip.qr_code "Đã nhận" ::
      Event.notifyReceived demoCreatedShip.id :: tail) ∧
    (showUpdateSubmit demoSt 2 demoCreatedShip "Đã nhận" "bob" "" true).1 =
      (showUpdateSubmit demoSt 2 demoCreatedShip "Đã nhận" "bob" "" false).1 :=
  claim_C9_notify_after_commit demoSt 2 demoCreatedShip "bob" "" false demoC9St
    demoShipRecBob (by decide) rfl

/-- C10: at the create-shipment form, submission is rejected with a
validation error exactly when one of the four scanned fields strips to empty,
and when all four are non-empty after stripping, save_shipment receives the
stripped field values. -/
theorem claim_C10_create_form :
    ∀ qr imei dn cap : String,
      ((pyStrip qr = "" ∨ pyStrip imei = "" ∨ pyStrip dn = "" ∨ pyStrip cap = "") ↔
        (∃ f, createFormSubmit qr imei dn cap = CreateFormResult.validationError f)) ∧
      (pyStrip qr ≠ "" → pyStrip imei ≠ "" → pyStrip dn ≠ "" → pyStrip cap ≠ "" →
        createFormSubmit qr imei dn cap =
          CreateFormResult.save (pyStrip qr) (pyStrip imei) (pyStrip dn) (pyStrip cap)) := by
  intro qr imei dn cap
  have hsave : pyStrip qr ≠ "" → pyStrip imei ≠ "" → pyStrip dn ≠ "" → pyStrip cap ≠ "" →
      createFormSubmit qr imei dn cap =
        CreateFormResult.save (pyStrip qr) (pyStrip imei) (pyStrip dn) (pyStrip cap) := by
    intro h1 h2 h3 h4
    simp only [createFormSubmit]
    rw [if_neg h1, if_neg h2, if_neg h3, if_neg h4]
  refine ⟨⟨?_, ?_⟩, hsave⟩
  · intro h
    simp only [createFormSubmit]
    by_cases h1 : pyStrip qr = ""
    · exact ⟨"qr_code", by rw [if_pos h1]⟩
    · by_cases h2 : pyStrip imei = ""
      · exact ⟨"imei", by rw [if_neg h1, if_pos h2]⟩
      · by_cases h3 : pyStrip dn = ""
        · exact ⟨"device_name", by rw [if_neg h1, if_neg h2, if_pos h3]⟩
        · by_cases h4 : pyStrip cap = ""
          · exact ⟨"capacity", by rw [if_neg h1, if_neg h2, if_neg h3, if_pos h4]⟩
          · rcases h with h | h | h | h
            · exact absurd h h1
            · exact absurd h h2
            · exact absurd h h3
            · exact absurd h h4
  · rintro ⟨f, hf⟩
    by_contra hno
    push_neg at hno
    obtain ⟨h1, h2, h3, h4⟩ := hno
    rw [hsave h1 h2 h3 h4] at hf
    exact CreateFormResult.noConfusion hf

/-- Witness for C10: a submission with whitespace-padded non-empty fields is
saved with the stripped values, and a submission with a blank qr_code is
rejected with a validation error. -/
theorem claim_C10_create_form_witness :
    createFormSubmit " QR9 " " IM9" "Dev 9" "128GB" =
      CreateFormResult.save "QR9" "IM9" "Dev 9" "128GB" ∧
    (∃ f, createFormSubmit "  " "IM" "D" "C" = CreateFormResult.validationError f) := by
  constructor
  · have h := (claim_C10_create_form " QR9 " " IM9" "Dev 9" "128GB").2 (by decide) (by decide)
      (by decide) (by decide)
    rw [h]
    decide
  · exact (claim_C10_create_form "  " "IM" "D" "C").1.mp (Or.inl (by decide))
